import Mathlib

/-!
# Verification of the todo-list store (`src/store/todoSlice.ts` and its UI callers)

This file gives a shallow embedding of the Redux slice `todoSlice.ts` of the
todo-list application, of the UI-level handlers in `TodoList.tsx` that wrap it,
and of the alternate slice variant found in the repository (the unnamed source
file that renumbers items on every structural change).  Local storage is
modelled as an injected key-value collaborator holding the one fixed key
`todos`; its value is either absent, unreadable/corrupt, or a previously
serialized list of items (JSON serialization of a todo list is injective and
`JSON.parse` inverts `JSON.stringify`, so the persisted string is modelled by
the list it encodes).

JavaScript string primitives used by the code (`trim`, `toLowerCase`,
`includes`) are modelled executably over the character list of a Lean string.
-/

/-- Model of JavaScript `String.prototype.trim`: drop leading and trailing
whitespace characters. -/
def jsTrim (s : String) : String :=
  ⟨((s.data.dropWhile Char.isWhitespace).reverse.dropWhile Char.isWhitespace).reverse⟩

/-- Model of JavaScript `String.prototype.toLowerCase`: lower-case every
character. -/
def jsToLower (s : String) : String :=
  ⟨s.data.map Char.toLower⟩

/-- Auxiliary scan for substring containment: `needle` occurs contiguously in
`hay`. -/
def includesAux (hay needle : List Char) : Bool :=
  needle.isPrefixOf hay ||
    match hay with
    | [] => false
    | _ :: t => includesAux t needle

/-- Model of JavaScript `hay.includes(needle)`: contiguous substring test. -/
def jsIncludes (hay needle : String) : Bool :=
  includesAux hay.data needle.data

/-- `interface Todo` of `todoSlice.ts`: one todo item. -/
structure Todo where
  id : String
  todoNo : Nat
  text : String
  description : String
  completed : Bool
deriving DecidableEq

/-- The value held by `localStorage` under the fixed key `'todos'`: the key may
be absent, hold an unreadable/corrupt string (`JSON.parse` throws), or hold the
serialization of a list of todos. -/
inductive StorageVal where
  | absent : StorageVal
  | corrupt : StorageVal
  | stored (todos : List Todo) : StorageVal
deriving DecidableEq

/-- The world state: the slice state `{ todos, searchQuery }` of `todoSlice.ts`
together with the injected storage collaborator. -/
structure TodoState where
  todos : List Todo
  searchQuery : String
  storage : StorageVal
deriving DecidableEq

/-- `loadFromLocalStorage` of `todoSlice.ts`: the parsed saved list, or `[]`
when the key is absent or parsing throws (the error is caught and logged). -/
def loadFromLocalStorage : StorageVal → List Todo
  | .absent => []
  | .corrupt => []
  | .stored todos => todos

/-- `saveToLocalStorage` of `todoSlice.ts`: overwrite the fixed key with the
serialization of `todos` (writes are assumed to succeed). -/
def saveToLocalStorage (s : TodoState) (todos : List Todo) : TodoState :=
  { s with storage := .stored todos }

/-- Reducer `initializeTodos` of `todoSlice.ts`:
`state.todos = loadFromLocalStorage()`. -/
def initializeTodos (s : TodoState) : TodoState :=
  { s with todos := loadFromLocalStorage s.storage }

/-- Reducer `addTodo` of `todoSlice.ts`: build the new todo with
`todoNo = state.todos.length + 1` and `completed = false`, push it, save.
The `nanoid()` call is modelled by the injected argument `freshId`. -/
def addTodo (s : TodoState) (freshId text description : String) : TodoState :=
  let newTodo : Todo :=
    { id := freshId
      todoNo := s.todos.length + 1
      text := text
      description := description
      completed := false }
  let todos := s.todos ++ [newTodo]
  saveToLocalStorage { s with todos := todos } todos

/-- `state.todos.find(todo => todo.id === id)` followed by
`todo.completed = !todo.completed` under Immer: flip the `completed` flag of
the first todo whose `id` matches, leave everything else as it is. -/
def toggleList (l : List Todo) (i : String) : List Todo :=
  match l with
  | [] => []
  | t :: ts =>
    if t.id == i then { t with completed := !t.completed } :: ts
    else t :: toggleList ts i

/-- Reducer `toggleTodo` of `todoSlice.ts`: if `find` hits, flip `completed`
of the hit and save; otherwise do nothing. -/
def toggleTodo (s : TodoState) (i : String) : TodoState :=
  if s.todos.any (fun t => t.id == i) then
    saveToLocalStorage { s with todos := toggleList s.todos i } (toggleList s.todos i)
  else s

/-- Reducer `deleteTodo` of `todoSlice.ts`:
`state.todos = state.todos.filter(todo => todo.id !== id)` then save.
No renumbering happens in this slice. -/
def deleteTodo (s : TodoState) (i : String) : TodoState :=
  let todos := s.todos.filter (fun t => !(t.id == i))
  saveToLocalStorage { s with todos := todos } todos

/-- `find` followed by overwriting `text` and `description` under Immer:
replace both fields of the first todo whose `id` matches. -/
def updateList (l : List Todo) (i text description : String) : List Todo :=
  match l with
  | [] => []
  | t :: ts =>
    if t.id == i then { t with text := text, description := description } :: ts
    else t :: updateList ts i text description

/-- Reducer `updateTodoText` of `todoSlice.ts`: if `find` hits, overwrite
`text` and `description` of the hit with the payload values (no trimming here)
and save; otherwise do nothing. -/
def updateTodoText (s : TodoState) (i text description : String) : TodoState :=
  if s.todos.any (fun t => t.id == i) then
    saveToLocalStorage { s with todos := updateList s.todos i text description }
      (updateList s.todos i text description)
  else s

/-- Reducer `setSearchQuery` of `todoSlice.ts`: replace the search query,
touch nothing else, do not persist. -/
def setSearchQuery (s : TodoState) (q : String) : TodoState :=
  { s with searchQuery := q }

/-- `handleAddTodo` of `TodoList.tsx`: dispatch `addTodo` with both inputs
trimmed only when the trimmed title is truthy (non-empty); otherwise do
nothing. -/
def handleAddTodo (s : TodoState) (freshId newTodoText newTodoDescription : String) :
    TodoState :=
  if jsTrim newTodoText == "" then s
  else addTodo s freshId (jsTrim newTodoText) (jsTrim newTodoDescription)

/-- `handleSaveEdit` of `TodoList.tsx`: dispatch `updateTodoText` with both
inputs trimmed only when the trimmed title is truthy (non-empty); otherwise do
nothing. -/
def handleSaveEdit (s : TodoState) (editId editText editDescription : String) :
    TodoState :=
  if jsTrim editText == "" then s
  else updateTodoText s editId (jsTrim editText) (jsTrim editDescription)

/-- `filteredTodos` of `TodoList.tsx`:
`todos.filter(todo => todo.text.toLowerCase().includes(searchQuery.toLowerCase()))`. -/
def filteredTodos (s : TodoState) : List Todo :=
  s.todos.filter (fun t => jsIncludes (jsToLower t.text) (jsToLower s.searchQuery))

namespace P000

/-- `forEach((todo, index) => todo.todoNo = index + 1)` of the alternate slice,
started at position `n` (the call sites use `n = 1`). -/
def renumberFrom (n : Nat) : List Todo → List Todo
  | [] => []
  | t :: ts => { t with todoNo := n } :: renumberFrom (n + 1) ts

/-- Renumber all todos `1..N` in current list order. -/
def renumber (l : List Todo) : List Todo := renumberFrom 1 l

/-- Reducer `initializeTodos` of the alternate slice: load, then renumber
(`Ensure proper sequential numbering`). -/
def initializeTodos (s : TodoState) : TodoState :=
  { s with todos := renumber (loadFromLocalStorage s.storage) }

/-- Reducer `addTodo` of the alternate slice: compute
`maxTodoNo = todos.length > 0 ? Math.max(...todos.map(t => t.todoNo)) : 0`,
push the new todo with `todoNo = maxTodoNo + 1`, renumber everything, save.
The `Date.now().toString()` call is modelled by the injected `freshId`. -/
def addTodo (s : TodoState) (freshId text description : String) : TodoState :=
  let maxTodoNo :=
    if s.todos.length > 0 then (s.todos.map (fun t => t.todoNo)).foldl Nat.max 0 else 0
  let newTodo : Todo :=
    { id := freshId
      todoNo := maxTodoNo + 1
      text := text
      description := description
      completed := false }
  let todos := renumber (s.todos ++ [newTodo])
  saveToLocalStorage { s with todos := todos } todos

/-- Reducer `deleteTodo` of the alternate slice: filter out the id, renumber
the remaining todos, save. -/
def deleteTodo (s : TodoState) (i : String) : TodoState :=
  let todos := renumber (s.todos.filter (fun t => !(t.id == i)))
  saveToLocalStorage { s with todos := todos } todos

end P000

/-- One store operation; `add`/`update` carry the payload strings, and `add`
also carries the id produced by the generator (`nanoid()` in the main slice). -/
inductive Op where
  | init : Op
  | add (freshId text description : String) : Op
  | toggle (i : String) : Op
  | delete (i : String) : Op
  | update (i text description : String) : Op
  | setSearch (q : String) : Op
deriving DecidableEq

/-- Apply one operation with the reducers of the main slice `todoSlice.ts`. -/
def stepMain : Op → TodoState → TodoState
  | .init, s => initializeTodos s
  | .add freshId text description, s => addTodo s freshId text description
  | .toggle i, s => toggleTodo s i
  | .delete i, s => deleteTodo s i
  | .update i text description, s => updateTodoText s i text description
  | .setSearch q, s => setSearchQuery s q

/-- Run a sequence of operations with the main slice. -/
def runMain : List Op → TodoState → TodoState
  | [], s => s
  | op :: ops, s => runMain ops (stepMain op s)

/-- Apply one operation with the reducers of the alternate slice
(`toggleTodo`, `updateTodoText` and `setSearchQuery` are textually identical
in both slices, so the main definitions are reused for them). -/
def stepP000 : Op → TodoState → TodoState
  | .init, s => P000.initializeTodos s
  | .add freshId text description, s => P000.addTodo s freshId text description
  | .toggle i, s => toggleTodo s i
  | .delete i, s => P000.deleteTodo s i
  | .update i text description, s => updateTodoText s i text description
  | .setSearch q, s => setSearchQuery s q

/-- Run a sequence of operations with the alternate slice. -/
def runP000 : List Op → TodoState → TodoState
  | [], s => s
  | op :: ops, s => runP000 ops (stepP000 op s)

/-- The sequential-numbering invariant: the display numbers of the list are
exactly `1, 2, ..., length` in order. -/
def seqNumbered (l : List Todo) : Prop :=
  l.map (fun t => t.todoNo) = List.range' 1 l.length

instance (l : List Todo) : Decidable (seqNumbered l) := by
  unfold seqNumbered; infer_instance

/-- The write-through invariant: the persisted value is exactly the
serialization of the current in-memory list. -/
def goodStorage (s : TodoState) : Prop :=
  s.storage = .stored s.todos

instance (s : TodoState) : Decidable (goodStorage s) := by
  unfold goodStorage; infer_instance

/-- Id-uniqueness of whatever list is persisted (vacuous when nothing parseable
is persisted). -/
def storageIdsNodup : StorageVal → Prop
  | .stored l => (l.map (fun t => t.id)).Nodup
  | _ => True

instance (v : StorageVal) : Decidable (storageIdsNodup v) :=
  match v with
  | .absent => .isTrue trivial
  | .corrupt => .isTrue trivial
  | .stored l => inferInstanceAs (Decidable ((l.map (fun t : Todo => t.id)).Nodup))

/-- The id-uniqueness invariant, for the in-memory list and for whatever list
is persisted. -/
def idsNodup (s : TodoState) : Prop :=
  (s.todos.map (fun t => t.id)).Nodup ∧ storageIdsNodup s.storage

instance (s : TodoState) : Decidable (idsNodup s) := by
  unfold idsNodup; infer_instance

/-- Freshness of one operation: an `add` supplies an id that no todo of the
current state carries; other operations supply no id. -/
def opFresh (op : Op) (s : TodoState) : Bool :=
  match op with
  | .add freshId _ _ => s.todos.all (fun t => !(t.id == freshId))
  | _ => true

/-- Freshness of the ids injected into a run: every `add` supplies an id that
no todo of the state at that point carries. -/
def freshRun : List Op → TodoState → Bool
  | [], _ => true
  | op :: ops, s => opFresh op s && freshRun ops (stepMain op s)

/-- The process-start state: empty slice, empty query, storage as given. -/
def procStart (v : StorageVal) : TodoState :=
  { todos := [], searchQuery := "", storage := v }

/-! ## Helper lemmas -/

theorem includesAux_iff (hay needle : List Char) :
    includesAux hay needle = true ↔ needle <:+: hay := by
  induction hay with
  | nil => simp [includesAux, List.isPrefixOf_iff_prefix]
  | cons a t ih =>
    rw [includesAux]
    simp [List.isPrefixOf_iff_prefix, ih, List.infix_cons_iff]

theorem jsIncludes_iff (hay needle : String) :
    jsIncludes hay needle = true ↔ needle.data <:+: hay.data :=
  includesAux_iff hay.data needle.data

theorem jsIncludes_empty_needle (hay : String) : jsIncludes hay "" = true := by
  rw [jsIncludes_iff]
  exact List.nil_infix

theorem toggleList_length (l : List Todo) (i : String) :
    (toggleList l i).length = l.length := by
  induction l with
  | nil => rfl
  | cons t ts ih =>
    rw [toggleList]
    split <;> simp [ih]

theorem toggleList_map_id (l : List Todo) (i : String) :
    (toggleList l i).map (fun t => t.id) = l.map (fun t => t.id) := by
  induction l with
  | nil => rfl
  | cons t ts ih =>
    rw [toggleList]
    split <;> simp [ih]

theorem toggleList_map_todoNo (l : List Todo) (i : String) :
    (toggleList l i).map (fun t => t.todoNo) = l.map (fun t => t.todoNo) := by
  induction l with
  | nil => rfl
  | cons t ts ih =>
    rw [toggleList]
    split <;> simp [ih]

theorem toggleList_toggleList (l : List Todo) (i : String) :
    toggleList (toggleList l i) i = l := by
  induction l with
  | nil => rfl
  | cons t ts ih =>
    by_cases hti : (t.id == i) = true
    · simp [toggleList, hti, Bool.not_not]
    · simp [toggleList, hti, ih]

theorem toggleTodo_of_forall_ne (s : TodoState) (i : String)
    (h : ∀ t ∈ s.todos, t.id ≠ i) : toggleTodo s i = s := by
  have hany : ¬ s.todos.any (fun t => t.id == i) = true := by
    simpa using h
  unfold toggleTodo
  rw [if_neg hany]

theorem toggleTodo_todos_of_mem (s : TodoState) (i : String)
    (h : ∃ t ∈ s.todos, t.id = i) :
    (toggleTodo s i).todos = toggleList s.todos i ∧
      (toggleTodo s i).storage = .stored (toggleList s.todos i) := by
  have hany : s.todos.any (fun t => t.id == i) = true := by
    simpa using h
  unfold toggleTodo
  rw [if_pos hany]
  exact ⟨rfl, rfl⟩

theorem toggleList_decomp (l : List Todo) (i : String) (h : ∃ t ∈ l, t.id = i) :
    ∃ l₁ t l₂, l = l₁ ++ t :: l₂ ∧ (∀ u ∈ l₁, u.id ≠ i) ∧ t.id = i ∧
      toggleList l i = l₁ ++ { t with completed := !t.completed } :: l₂ := by
  induction l with
  | nil => simp at h
  | cons a ts ih =>
    by_cases hai : a.id = i
    · exact ⟨[], a, ts, by simp, by simp, hai, by simp [toggleList, hai]⟩
    · obtain ⟨t, ht, hti⟩ := h
      rcases List.mem_cons.mp ht with rfl | hmem
      · exact absurd hti hai
      · obtain ⟨l₁, u, l₂, heq, hne, hui, htog⟩ := ih ⟨t, hmem, hti⟩
        refine ⟨a :: l₁, u, l₂, by simp [heq], ?_, hui, by simp [toggleList, hai, htog]⟩
        intro v hv
        rcases List.mem_cons.mp hv with rfl | hv'
        · exact hai
        · exact hne v hv'

theorem updateList_length (l : List Todo) (i text description : String) :
    (updateList l i text description).length = l.length := by
  induction l with
  | nil => rfl
  | cons t ts ih =>
    rw [updateList]
    split <;> simp [ih]

theorem updateList_map_id (l : List Todo) (i text description : String) :
    (updateList l i text description).map (fun t => t.id) = l.map (fun t => t.id) := by
  induction l with
  | nil => rfl
  | cons t ts ih =>
    rw [updateList]
    split <;> simp [ih]

theorem updateList_map_todoNo (l : List Todo) (i text description : String) :
    (updateList l i text description).map (fun t => t.todoNo) =
      l.map (fun t => t.todoNo) := by
  induction l with
  | nil => rfl
  | cons t ts ih =>
    rw [updateList]
    split <;> simp [ih]

theorem updateTodoText_of_forall_ne (s : TodoState) (i text description : String)
    (h : ∀ t ∈ s.todos, t.id ≠ i) : updateTodoText s i text description = s := by
  have hany : ¬ s.todos.any (fun t => t.id == i) = true := by
    simpa using h
  unfold updateTodoText
  rw [if_neg hany]

theorem updateTodoText_todos_of_mem (s : TodoState) (i text description : String)
    (h : ∃ t ∈ s.todos, t.id = i) :
    (updateTodoText s i text description).todos = updateList s.todos i text description ∧
      (updateTodoText s i text description).storage =
        .stored (updateList s.todos i text description) := by
  have hany : s.todos.any (fun t => t.id == i) = true := by
    simpa using h
  unfold updateTodoText
  rw [if_pos hany]
  exact ⟨rfl, rfl⟩

theorem updateList_decomp (l : List Todo) (i text description : String)
    (h : ∃ t ∈ l, t.id = i) :
    ∃ l₁ t l₂, l = l₁ ++ t :: l₂ ∧ (∀ u ∈ l₁, u.id ≠ i) ∧ t.id = i ∧
      updateList l i text description =
        l₁ ++ { t with text := text, description := description } :: l₂ := by
  induction l with
  | nil => simp at h
  | cons a ts ih =>
    by_cases hai : a.id = i
    · exact ⟨[], a, ts, by simp, by simp, hai, by simp [updateList, hai]⟩
    · obtain ⟨t, ht, hti⟩ := h
      rcases List.mem_cons.mp ht with rfl | hmem
      · exact absurd hti hai
      · obtain ⟨l₁, u, l₂, heq, hne, hui, hupd⟩ := ih ⟨t, hmem, hti⟩
        refine ⟨a :: l₁, u, l₂, by simp [heq], ?_, hui, by simp [updateList, hai, hupd]⟩
        intro v hv
        rcases List.mem_cons.mp hv with rfl | hv'
        · exact hai
        · exact hne v hv'

theorem renumberFrom_length (n : Nat) (l : List Todo) :
    (P000.renumberFrom n l).length = l.length := by
  induction l generalizing n with
  | nil => rfl
  | cons t ts ih => simp [P000.renumberFrom, ih]

theorem renumberFrom_map_todoNo (n : Nat) (l : List Todo) :
    (P000.renumberFrom n l).map (fun t => t.todoNo) = List.range' n l.length := by
  induction l generalizing n with
  | nil => rfl
  | cons t ts ih => simp [P000.renumberFrom, List.range', ih]

theorem seqNumbered_renumber (l : List Todo) : seqNumbered (P000.renumber l) := by
  unfold seqNumbered P000.renumber
  rw [renumberFrom_map_todoNo, renumberFrom_length]

theorem map_id_append_nodup (l : List Todo) (nt : Todo)
    (hl : (l.map (fun t => t.id)).Nodup) (hfresh : ∀ t ∈ l, t.id ≠ nt.id) :
    ((l ++ [nt]).map (fun t => t.id)).Nodup := by
  rw [List.map_append, List.nodup_append]
  refine ⟨hl, by simp, ?_⟩
  intro x hx hx2
  simp only [List.map_cons, List.map_nil, List.mem_singleton] at hx2
  obtain ⟨t, ht, rfl⟩ := List.mem_map.mp hx
  exact hfresh t ht hx2

theorem goodStorage_step (op : Op) (s : TodoState) (h : goodStorage s) :
    goodStorage (stepMain op s) := by
  cases op with
  | init =>
    unfold goodStorage at h ⊢
    show s.storage = .stored (loadFromLocalStorage s.storage)
    rw [h]
    rfl
  | add freshId text description =>
    simp [stepMain, addTodo, saveToLocalStorage, goodStorage]
  | toggle i =>
    rw [stepMain, toggleTodo]
    split
    · simp [saveToLocalStorage, goodStorage]
    · exact h
  | delete i => simp [stepMain, deleteTodo, saveToLocalStorage, goodStorage]
  | update i text description =>
    rw [stepMain, updateTodoText]
    split
    · simp [saveToLocalStorage, goodStorage]
    · exact h
  | setSearch q => simpa [stepMain, setSearchQuery, goodStorage] using h

theorem goodStorage_run (ops : List Op) (s : TodoState) (h : goodStorage s) :
    goodStorage (runMain ops s) := by
  induction ops generalizing s with
  | nil => exact h
  | cons op ops ih => exact ih _ (goodStorage_step op s h)

theorem idsNodup_step (op : Op) (s : TodoState) (h : idsNodup s)
    (hf : ∀ freshId text description, op = .add freshId text description →
      ∀ t ∈ s.todos, t.id ≠ freshId) :
    idsNodup (stepMain op s) := by
  obtain ⟨hmem, hsto⟩ := h
  cases op with
  | init =>
    refine ⟨?_, hsto⟩
    rw [stepMain, initializeTodos]
    cases hv : s.storage with
    | absent => simp [loadFromLocalStorage]
    | corrupt => simp [loadFromLocalStorage]
    | stored l =>
      rw [hv] at hsto
      simpa [loadFromLocalStorage] using hsto
  | add freshId text description =>
    have hfresh : ∀ t ∈ s.todos, t.id ≠ freshId := hf freshId text description rfl
    have hnew :
        ((s.todos ++ [(⟨freshId, s.todos.length + 1, text, description, false⟩ : Todo)]).map
          (fun t => t.id)).Nodup :=
      map_id_append_nodup s.todos _ hmem hfresh
    exact ⟨hnew, hnew⟩
  | toggle i =>
    rw [stepMain, toggleTodo]
    split
    · refine ⟨?_, ?_⟩ <;>
        simp [saveToLocalStorage, storageIdsNodup, toggleList_map_id, hmem]
    · exact ⟨hmem, hsto⟩
  | delete i =>
    have hsub : ((s.todos.filter (fun t => !(t.id == i))).map (fun t => t.id)).Nodup :=
      (List.Sublist.map _ (List.filter_sublist s.todos)).nodup hmem
    exact ⟨hsub, hsub⟩
  | update i text description =>
    rw [stepMain, updateTodoText]
    split
    · refine ⟨?_, ?_⟩ <;>
        simp [saveToLocalStorage, storageIdsNodup, updateList_map_id, hmem]
    · exact ⟨hmem, hsto⟩
  | setSearch q => exact ⟨hmem, hsto⟩

theorem idsNodup_run (ops : List Op) (s : TodoState) (h : idsNodup s)
    (hfr : freshRun ops s = true) : idsNodup (runMain ops s) := by
  induction ops generalizing s with
  | nil => exact h
  | cons op ops ih =>
    rw [freshRun, Bool.and_eq_true] at hfr
    refine ih _ (idsNodup_step op s h ?_) hfr.2
    intro freshId text description hop t ht
    subst hop
    have hall : s.todos.all (fun u => !(u.id == freshId)) = true := hfr.1
    have := List.all_eq_true.mp hall t ht
    simpa using this

theorem seqNumbered_stepP000 (op : Op) (s : TodoState) (h : seqNumbered s.todos) :
    seqNumbered (stepP000 op s).todos := by
  cases op with
  | init => exact seqNumbered_renumber _
  | add freshId text description => exact seqNumbered_renumber _
  | toggle i =>
    rw [stepP000, toggleTodo]
    split
    · unfold seqNumbered at h ⊢
      simpa [saveToLocalStorage, toggleList_map_todoNo, toggleList_length] using h
    · exact h
  | delete i => exact seqNumbered_renumber _
  | update i text description =>
    rw [stepP000, updateTodoText]
    split
    · unfold seqNumbered at h ⊢
      simpa [saveToLocalStorage, updateList_map_todoNo, updateList_length] using h
    · exact h
  | setSearch q => exact h

theorem seqNumbered_runP000 (ops : List Op) (s : TodoState) (h : seqNumbered s.todos) :
    seqNumbered (runP000 ops s).todos := by
  induction ops generalizing s with
  | nil => exact h
  | cons op ops ih => exact ih _ (seqNumbered_stepP000 op s h)

theorem toggleList_forall₂ (l : List Todo) (i : String) :
    List.Forall₂ (fun a b => b.id = a.id ∧ b.todoNo = a.todoNo ∧ b.text = a.text ∧
        b.description = a.description ∧ (a.id ≠ i → b.completed = a.completed))
      l (toggleList l i) := by
  induction l with
  | nil => exact List.Forall₂.nil
  | cons t ts ih =>
    rw [toggleList]
    by_cases hti : (t.id == i) = true
    · rw [if_pos hti]
      refine List.Forall₂.cons
        ⟨rfl, rfl, rfl, rfl, fun hne => absurd (by simpa using hti) hne⟩ ?_
      exact List.forall₂_same.mpr fun a _ => ⟨rfl, rfl, rfl, rfl, fun _ => rfl⟩
    · rw [if_neg hti]
      exact List.Forall₂.cons ⟨rfl, rfl, rfl, rfl, fun _ => rfl⟩ ih

theorem updateList_forall₂ (l : List Todo) (i text description : String) :
    List.Forall₂ (fun a b => b.id = a.id ∧ b.todoNo = a.todoNo ∧ b.completed = a.completed ∧
        (a.id ≠ i → b.text = a.text ∧ b.description = a.description))
      l (updateList l i text description) := by
  induction l with
  | nil => exact List.Forall₂.nil
  | cons t ts ih =>
    rw [updateList]
    by_cases hti : (t.id == i) = true
    · rw [if_pos hti]
      refine List.Forall₂.cons
        ⟨rfl, rfl, rfl, fun hne => absurd (by simpa using hti) hne⟩ ?_
      exact List.forall₂_same.mpr fun a _ => ⟨rfl, rfl, rfl, fun _ => ⟨rfl, rfl⟩⟩
    · rw [if_neg hti]
      exact List.Forall₂.cons ⟨rfl, rfl, rfl, fun _ => ⟨rfl, rfl⟩⟩ ih

/-! ## Claims -/

/-- Claim C1, counterexample: in the slice of `src/store/todoSlice.ts`, deleting
the first of two todos leaves the remaining todo with display number 2 at
1-based position 1, so after a delete operation the display numbers are not the
1-based positions. -/
theorem c1_counterexample :
    ¬ seqNumbered (runMain [Op.add "a1" "a" "", Op.add "a2" "b" "", Op.delete "a1"]
        (procStart StorageVal.absent)).todos := by
  decide

/-- Claim C1, amended: in the alternate slice (the renumbering variant), after
any sequence of add, toggle, delete, update, load and search operations from a
sequentially numbered state, every todo's display number equals its 1-based
position; in the main slice of `src/store/todoSlice.ts` this invariant is
preserved by add (the appended todo gets number length + 1) but not by delete
or load, which never renumber. -/
theorem c1_amended_numbering :
    (∀ (ops : List Op) (s : TodoState), seqNumbered s.todos →
        seqNumbered (runP000 ops s).todos) ∧
      (∀ (s : TodoState) (freshId text description : String), seqNumbered s.todos →
        seqNumbered (addTodo s freshId text description).todos) := by
  constructor
  · exact seqNumbered_runP000
  · intro s freshId text description h
    unfold seqNumbered at h ⊢
    show (s.todos ++
        [(⟨freshId, s.todos.length + 1, text, description, false⟩ : Todo)]).map
          (fun t => t.todoNo) = _
    rw [List.map_append, h]
    have hlen : (addTodo s freshId text description).todos.length = s.todos.length + 1 := by
      show (s.todos ++ [_]).length = _
      simp
    rw [hlen, List.range'_concat]
    simp [Nat.add_comm]

/-- Claim C1, witness: the amended invariant holds on a concrete run of the
renumbering slice. -/
theorem c1_amended_numbering_witness :
    seqNumbered (procStart StorageVal.absent).todos ∧
      seqNumbered (runP000 [Op.add "a1" "a" "", Op.add "a2" "b" "", Op.delete "a1"]
        (procStart StorageVal.absent)).todos :=
  ⟨by decide, c1_amended_numbering.1 [Op.add "a1" "a" "", Op.add "a2" "b" "", Op.delete "a1"]
    (procStart StorageVal.absent) (by decide)⟩

/-- Claim C2: adding with a title that is empty after trimming is a no-op of
the add path of `TodoList.tsx` (the handler dispatches nothing), and in
particular adding with the empty title never changes the number of items. -/
theorem c2_add_blank_title_noop :
    ∀ (s : TodoState) (freshId title description : String),
      (jsTrim title = "" → handleAddTodo s freshId title description = s) ∧
        (handleAddTodo s freshId "" description).todos.length = s.todos.length := by
  intro s freshId title description
  constructor
  · intro h
    unfold handleAddTodo
    rw [if_pos (by simpa using h)]
  · unfold handleAddTodo
    rw [if_pos (by decide)]

/-- Claim C2, witness: a whitespace-only title is rejected on a concrete
state. -/
theorem c2_add_blank_title_noop_witness :
    jsTrim "   " = "" ∧
      handleAddTodo (procStart StorageVal.absent) "id1" "   " "x" =
        procStart StorageVal.absent :=
  ⟨by decide, (c2_add_blank_title_noop (procStart StorageVal.absent) "id1" "   " "x").1
    (by decide)⟩

/-- Claim C3: starting from a state whose in-memory and persisted ids are
pairwise distinct, if every add of a run supplies an id carried by no current
todo (the model of the generator never repeating an id), then every reachable
state of the main slice has pairwise distinct ids across its items. -/
theorem c3_ids_nodup :
    ∀ (ops : List Op) (s : TodoState), idsNodup s → freshRun ops s = true →
      ((runMain ops s).todos.map (fun t => t.id)).Nodup :=
  fun ops s h hfr => (idsNodup_run ops s h hfr).1

/-- Claim C3, witness: a concrete fresh run from the empty process-start state
has pairwise distinct ids. -/
theorem c3_ids_nodup_witness :
    idsNodup (procStart StorageVal.absent) ∧
      freshRun [Op.add "a1" "a" "", Op.add "a2" "b" "", Op.delete "a1", Op.add "a3" "c" ""]
        (procStart StorageVal.absent) = true ∧
      ((runMain [Op.add "a1" "a" "", Op.add "a2" "b" "", Op.delete "a1", Op.add "a3" "c" ""]
          (procStart StorageVal.absent)).todos.map (fun t => t.id)).Nodup :=
  ⟨by decide, by decide, c3_ids_nodup _ _ (by decide) (by decide)⟩

/-- Claim C4, counterexample: a state holds a todo with id `a` and title `old`;
the claim says updating it with the whitespace title `"   "` replaces the title
with the trimmed (empty) value, but the edit path of `TodoList.tsx` leaves the
state untouched, so the title stays `old` and is not the trimmed input. -/
theorem c4_counterexample :
    handleSaveEdit ⟨[⟨"a", 1, "old", "d", false⟩], "", StorageVal.absent⟩ "a" "   " "nd" =
        ⟨[⟨"a", 1, "old", "d", false⟩], "", StorageVal.absent⟩ ∧
      jsTrim "   " = "" ∧
      (handleSaveEdit ⟨[⟨"a", 1, "old", "d", false⟩], "", StorageVal.absent⟩
          "a" "   " "nd").todos.map (fun t => t.text) ≠ [jsTrim "   "] :=
  ⟨by decide, by decide, by decide⟩

/-- Claim C4, amended: the edit path is a no-op when no item has the id and
also when the title trims to empty; when the trimmed title is non-empty and an
item has the id, it replaces the first matching item's title and description
with the trimmed inputs and persists the result. -/
theorem c4_update_semantics :
    ∀ (s : TodoState) (i title description : String),
      ((∀ t ∈ s.todos, t.id ≠ i) → handleSaveEdit s i title description = s) ∧
        (jsTrim title = "" → handleSaveEdit s i title description = s) ∧
        (jsTrim title ≠ "" → (∃ t ∈ s.todos, t.id = i) →
          ∃ l₁ t l₂, s.todos = l₁ ++ t :: l₂ ∧ (∀ u ∈ l₁, u.id ≠ i) ∧ t.id = i ∧
            (handleSaveEdit s i title description).todos =
              l₁ ++ { t with text := jsTrim title, description := jsTrim description } :: l₂ ∧
            (handleSaveEdit s i title description).storage =
              .stored ((handleSaveEdit s i title description).todos)) := by
  intro s i title description
  refine ⟨?_, ?_, ?_⟩
  · intro h
    unfold handleSaveEdit
    split
    · rfl
    · exact updateTodoText_of_forall_ne s i _ _ h
  · intro h
    unfold handleSaveEdit
    rw [if_pos (by simpa using h)]
  · intro hne hmem
    have hcond : ¬ (jsTrim title == "") = true := by simpa using hne
    obtain ⟨l₁, t, l₂, heq, hno, hti, hupd⟩ :=
      updateList_decomp s.todos i (jsTrim title) (jsTrim description) hmem
    obtain ⟨h1, h2⟩ := updateTodoText_todos_of_mem s i (jsTrim title) (jsTrim description) hmem
    refine ⟨l₁, t, l₂, heq, hno, hti, ?_, ?_⟩
    · unfold handleSaveEdit
      rw [if_neg hcond, h1, hupd]
    · unfold handleSaveEdit
      rw [if_neg hcond, h1, h2]

/-- Claim C4, witness: saving an edit whose title trims to empty is a no-op on
a concrete state. -/
theorem c4_update_semantics_witness :
    jsTrim "  " = "" ∧
      handleSaveEdit (procStart StorageVal.absent) "a" "  " "x" =
        procStart StorageVal.absent :=
  ⟨by decide, (c4_update_semantics (procStart StorageVal.absent) "a" "  " "x").2.1 (by decide)⟩

/-- Claim C5, counterexample: from a fresh process (storage key absent),
initialize and then toggle an unknown id; the toggle is a mutating operation
and completes, but nothing was ever written, so the persisted value does not
equal the serialization of the current (empty) items. -/
theorem c5_counterexample :
    ¬ goodStorage (runMain [Op.init, Op.toggle "a"] (procStart StorageVal.absent)) := by
  decide

/-- Claim C5, amended: the write-through equality (persisted value equals the
serialization of the current items) is preserved by every operation of the
main slice, is established unconditionally by add and delete, and is
established by toggle and update whenever the id is present. -/
theorem c5_write_through :
    (∀ (ops : List Op) (s : TodoState), goodStorage s → goodStorage (runMain ops s)) ∧
      (∀ (s : TodoState) (freshId text description i : String),
        goodStorage (addTodo s freshId text description) ∧ goodStorage (deleteTodo s i)) ∧
      (∀ (s : TodoState) (i text description : String), (∃ t ∈ s.todos, t.id = i) →
        goodStorage (toggleTodo s i) ∧ goodStorage (updateTodoText s i text description)) := by
  refine ⟨goodStorage_run, ?_, ?_⟩
  · intro s freshId text description i
    exact ⟨rfl, rfl⟩
  · intro s i text description hmem
    constructor
    · obtain ⟨h1, h2⟩ := toggleTodo_todos_of_mem s i hmem
      unfold goodStorage
      rw [h1, h2]
    · obtain ⟨h1, h2⟩ := updateTodoText_todos_of_mem s i text description hmem
      unfold goodStorage
      rw [h1, h2]

/-- Claim C5, witness: write-through holds along a concrete run that exercises
every mutating operation. -/
theorem c5_write_through_witness :
    goodStorage (procStart (StorageVal.stored [])) ∧
      goodStorage (runMain
        [Op.init, Op.toggle "a", Op.add "x" "t" "", Op.update "x" "u" "v", Op.delete "x"]
        (procStart (StorageVal.stored []))) :=
  ⟨by decide, c5_write_through.1 _ _ (by decide)⟩

/-- Claim C6: after any sequence of operations from a state whose storage
reflects its items, initialize restores exactly the current items (all fields,
display numbers included); from an absent or corrupt storage value it yields
the empty sequence (the failure is swallowed inside the load). -/
theorem c6_initialize_round_trip :
    (∀ (ops : List Op) (s : TodoState), goodStorage s →
        (initializeTodos (runMain ops s)).todos = (runMain ops s).todos) ∧
      (∀ s : TodoState, s.storage = StorageVal.absent ∨ s.storage = StorageVal.corrupt →
        (initializeTodos s).todos = []) := by
  constructor
  · intro ops s h
    have hg := goodStorage_run ops s h
    unfold goodStorage at hg
    show loadFromLocalStorage (runMain ops s).storage = _
    rw [hg]
    rfl
  · intro s h
    show loadFromLocalStorage s.storage = []
    rcases h with h | h <;> rw [h] <;> rfl

/-- Claim C6, witness: a concrete mutated run restores losslessly, and a
corrupt storage value loads as the empty list. -/
theorem c6_initialize_round_trip_witness :
    goodStorage (procStart (StorageVal.stored [])) ∧
      (initializeTodos (runMain [Op.add "a1" "Buy milk" "", Op.toggle "a1"]
          (procStart (StorageVal.stored [])))).todos =
        (runMain [Op.add "a1" "Buy milk" "", Op.toggle "a1"]
          (procStart (StorageVal.stored []))).todos ∧
      (initializeTodos (procStart StorageVal.corrupt)).todos = [] :=
  ⟨by decide,
    c6_initialize_round_trip.1 [Op.add "a1" "Buy milk" "", Op.toggle "a1"]
      (procStart (StorageVal.stored [])) (by decide),
    c6_initialize_round_trip.2 (procStart StorageVal.corrupt) (Or.inr (by decide))⟩

/-- Claim C7: toggling an id carried by no item is a no-op; toggling an id
that is present flips the completed flag of the first matching item and leaves
the rest of the list as it was; toggling the same id twice returns the items
(and so the matched item's completed flag) to their original value. -/
theorem c7_toggle_semantics :
    ∀ (s : TodoState) (i : String),
      ((∀ t ∈ s.todos, t.id ≠ i) → toggleTodo s i = s) ∧
        ((∃ t ∈ s.todos, t.id = i) →
          ∃ l₁ t l₂, s.todos = l₁ ++ t :: l₂ ∧ (∀ u ∈ l₁, u.id ≠ i) ∧ t.id = i ∧
            (toggleTodo s i).todos = l₁ ++ { t with completed := !t.completed } :: l₂) ∧
        (toggleTodo (toggleTodo s i) i).todos = s.todos := by
  intro s i
  refine ⟨toggleTodo_of_forall_ne s i, ?_, ?_⟩
  · intro hmem
    obtain ⟨l₁, t, l₂, heq, hno, hti, htog⟩ := toggleList_decomp s.todos i hmem
    exact ⟨l₁, t, l₂, heq, hno, hti, by rw [(toggleTodo_todos_of_mem s i hmem).1, htog]⟩
  · by_cases hmem : ∃ t ∈ s.todos, t.id = i
    · have h1 := (toggleTodo_todos_of_mem s i hmem).1
      have hmem2 : ∃ t ∈ (toggleTodo s i).todos, t.id = i := by
        have hmap : i ∈ (toggleList s.todos i).map (fun t => t.id) := by
          rw [toggleList_map_id]
          obtain ⟨t, ht, rfl⟩ := hmem
          exact List.mem_map_of_mem _ ht
        obtain ⟨t', ht', hid⟩ := List.mem_map.mp hmap
        exact ⟨t', by rw [h1]; exact ht', hid⟩
      rw [(toggleTodo_todos_of_mem (toggleTodo s i) i hmem2).1, h1, toggleList_toggleList]
    · have hne : ∀ t ∈ s.todos, t.id ≠ i := fun t ht hid => hmem ⟨t, ht, hid⟩
      rw [toggleTodo_of_forall_ne s i hne, toggleTodo_of_forall_ne s i hne]

/-- Claim C7, witness: on a concrete one-item state the present id is flipped,
a double toggle restores the items, and the decomposition is exhibited. -/
theorem c7_toggle_semantics_witness :
    (∃ t ∈ (TodoState.mk [⟨"a", 1, "T", "", false⟩] "" StorageVal.absent).todos,
        t.id = "a") ∧
      (toggleTodo (toggleTodo (TodoState.mk [⟨"a", 1, "T", "", false⟩] ""
          StorageVal.absent) "a") "a").todos =
        (TodoState.mk [⟨"a", 1, "T", "", false⟩] "" StorageVal.absent).todos ∧
      ∃ l₁ t l₂,
        (TodoState.mk [⟨"a", 1, "T", "", false⟩] "" StorageVal.absent).todos =
            l₁ ++ t :: l₂ ∧
          (∀ u ∈ l₁, u.id ≠ "a") ∧ t.id = "a" ∧
          (toggleTodo (TodoState.mk [⟨"a", 1, "T", "", false⟩] ""
              StorageVal.absent) "a").todos =
            l₁ ++ { t with completed := !t.completed } :: l₂ :=
  ⟨⟨⟨"a", 1, "T", "", false⟩, by decide, rfl⟩,
    (c7_toggle_semantics (TodoState.mk [⟨"a", 1, "T", "", false⟩] ""
      StorageVal.absent) "a").2.2,
    (c7_toggle_semantics (TodoState.mk [⟨"a", 1, "T", "", false⟩] ""
      StorageVal.absent) "a").2.1 ⟨⟨"a", 1, "T", "", false⟩, by decide, rfl⟩⟩

/-- Claim C8: delete removes exactly the items with the matching id (membership
characterization), leaves the items unchanged when the id is absent, and a
second delete of the same id leaves the whole state unchanged (idempotence). -/
theorem c8_delete_semantics :
    ∀ (s : TodoState) (i : String),
      ((∀ t ∈ s.todos, t.id ≠ i) → (deleteTodo s i).todos = s.todos) ∧
        (∀ t : Todo, t ∈ (deleteTodo s i).todos ↔ t ∈ s.todos ∧ t.id ≠ i) ∧
        deleteTodo (deleteTodo s i) i = deleteTodo s i := by
  intro s i
  have hff : (s.todos.filter (fun t => !(t.id == i))).filter (fun t => !(t.id == i)) =
      s.todos.filter (fun t => !(t.id == i)) := by
    rw [List.filter_filter]
    simp
  refine ⟨?_, ?_, ?_⟩
  · intro h
    show s.todos.filter _ = s.todos
    rw [List.filter_eq_self]
    intro t ht
    simpa using h t ht
  · intro t
    show t ∈ s.todos.filter _ ↔ _
    rw [List.mem_filter]
    simp
  · show saveToLocalStorage _ _ = _
    unfold deleteTodo saveToLocalStorage
    simp only [hff]

/-- Claim C8, witness: deleting an id present in a concrete two-item state
removes exactly that item, a repeat delete changes nothing, and deleting an
absent id leaves the items alone. -/
theorem c8_delete_semantics_witness :
    (∀ t ∈ (TodoState.mk [⟨"a", 1, "T", "", false⟩] "" StorageVal.absent).todos,
        t.id ≠ "z") ∧
      (deleteTodo (TodoState.mk [⟨"a", 1, "T", "", false⟩] "" StorageVal.absent)
          "z").todos =
        (TodoState.mk [⟨"a", 1, "T", "", false⟩] "" StorageVal.absent).todos ∧
      deleteTodo (deleteTodo (TodoState.mk [⟨"a", 1, "T", "", false⟩] ""
          StorageVal.absent) "a") "a" =
        deleteTodo (TodoState.mk [⟨"a", 1, "T", "", false⟩] "" StorageVal.absent) "a" :=
  ⟨by decide,
    (c8_delete_semantics (TodoState.mk [⟨"a", 1, "T", "", false⟩] ""
      StorageVal.absent) "z").1 (by decide),
    (c8_delete_semantics (TodoState.mk [⟨"a", 1, "T", "", false⟩] ""
      StorageVal.absent) "a").2.2⟩

/-- Claim C9: the filtered view is an order-preserving subsequence of the
items, containing exactly the items whose lower-cased title contains the
lower-cased search query as a contiguous substring; with the empty query it is
all items, and when no title matches it is empty. It is a pure function of the
state and mutates nothing. -/
theorem c9_filtered_view :
    ∀ s : TodoState,
      List.Sublist (filteredTodos s) s.todos ∧
        (∀ t : Todo, t ∈ filteredTodos s ↔
          t ∈ s.todos ∧ (jsToLower s.searchQuery).data <:+: (jsToLower t.text).data) ∧
        (s.searchQuery = "" → filteredTodos s = s.todos) ∧
        ((∀ t ∈ s.todos, jsIncludes (jsToLower t.text) (jsToLower s.searchQuery) = false) →
          filteredTodos s = []) := by
  intro s
  refine ⟨List.filter_sublist _, ?_, ?_, ?_⟩
  · intro t
    unfold filteredTodos
    rw [List.mem_filter, jsIncludes_iff]
  · intro h
    unfold filteredTodos
    rw [List.filter_eq_self]
    intro t ht
    rw [h]
    exact jsIncludes_empty_needle _
  · intro h
    unfold filteredTodos
    rw [List.filter_eq_nil_iff]
    intro t ht
    simp [h t ht]

/-- Claim C9, witness: with the empty query the view is all items on a
concrete state, and the query Buy matches the title buy milk
case-insensitively. -/
theorem c9_filtered_view_witness :
    (TodoState.mk [⟨"a", 1, "buy milk", "", false⟩] "" StorageVal.absent).searchQuery
        = "" ∧
      filteredTodos (TodoState.mk [⟨"a", 1, "buy milk", "", false⟩] ""
          StorageVal.absent) =
        (TodoState.mk [⟨"a", 1, "buy milk", "", false⟩] "" StorageVal.absent).todos ∧
      ((⟨"a", 1, "buy milk", "", false⟩ : Todo) ∈
        filteredTodos (TodoState.mk [⟨"a", 1, "buy milk", "", false⟩] "Buy"
          StorageVal.absent)) :=
  ⟨rfl,
    (c9_filtered_view (TodoState.mk [⟨"a", 1, "buy milk", "", false⟩] ""
      StorageVal.absent)).2.2.1 rfl,
    ((c9_filtered_view (TodoState.mk [⟨"a", 1, "buy milk", "", false⟩] "Buy"
      StorageVal.absent)).2.1 _).mpr ⟨by decide, by decide⟩⟩

/-- Claim C10: toggle changes at most the completed flag of the matching item
and update changes at most the text and description of the matching item: both
keep the length, the order, the search query, and every other field of every
item (ids and display numbers included) unchanged. -/
theorem c10_frame :
    ∀ (s : TodoState) (i text description : String),
      ((toggleTodo s i).todos.length = s.todos.length ∧
        (toggleTodo s i).searchQuery = s.searchQuery ∧
        List.Forall₂ (fun a b => b.id = a.id ∧ b.todoNo = a.todoNo ∧ b.text = a.text ∧
            b.description = a.description ∧ (a.id ≠ i → b.completed = a.completed))
          s.todos (toggleTodo s i).todos) ∧
      ((updateTodoText s i text description).todos.length = s.todos.length ∧
        (updateTodoText s i text description).searchQuery = s.searchQuery ∧
        List.Forall₂ (fun a b => b.id = a.id ∧ b.todoNo = a.todoNo ∧
            b.completed = a.completed ∧
            (a.id ≠ i → b.text = a.text ∧ b.description = a.description))
          s.todos (updateTodoText s i text description).todos) := by
  intro s i text description
  constructor
  · rw [toggleTodo]
    split
    · exact ⟨toggleList_length s.todos i, rfl, toggleList_forall₂ s.todos i⟩
    · exact ⟨rfl, rfl,
        List.forall₂_same.mpr fun a _ => ⟨rfl, rfl, rfl, rfl, fun _ => rfl⟩⟩
  · rw [updateTodoText]
    split
    · exact ⟨updateList_length s.todos i text description, rfl,
        updateList_forall₂ s.todos i text description⟩
    · exact ⟨rfl, rfl,
        List.forall₂_same.mpr fun a _ => ⟨rfl, rfl, rfl, fun _ => ⟨rfl, rfl⟩⟩⟩

/-- Claim C10, witness: the frame property instantiated on a concrete
two-item state. -/
theorem c10_frame_witness :
    ((toggleTodo (TodoState.mk [⟨"a", 1, "T", "", false⟩, ⟨"b", 2, "U", "", false⟩]
          "q" StorageVal.absent) "a").todos.length =
        (TodoState.mk [⟨"a", 1, "T", "", false⟩, ⟨"b", 2, "U", "", false⟩]
          "q" StorageVal.absent).todos.length ∧
      (toggleTodo (TodoState.mk [⟨"a", 1, "T", "", false⟩, ⟨"b", 2, "U", "", false⟩]
          "q" StorageVal.absent) "a").searchQuery =
        (TodoState.mk [⟨"a", 1, "T", "", false⟩, ⟨"b", 2, "U", "", false⟩]
          "q" StorageVal.absent).searchQuery ∧
      List.Forall₂ (fun a b => b.id = a.id ∧ b.todoNo = a.todoNo ∧ b.text = a.text ∧
          b.description = a.description ∧ (a.id ≠ "a" → b.completed = a.completed))
        (TodoState.mk [⟨"a", 1, "T", "", false⟩, ⟨"b", 2, "U", "", false⟩]
          "q" StorageVal.absent).todos
        (toggleTodo (TodoState.mk [⟨"a", 1, "T", "", false⟩, ⟨"b", 2, "U", "", false⟩]
          "q" StorageVal.absent) "a").todos) :=
  (c10_frame (TodoState.mk [⟨"a", 1, "T", "", false⟩, ⟨"b", 2, "U", "", false⟩]
    "q" StorageVal.absent) "a" "x" "y").1
